import Mathlib

/-!
Verification of the klasa SettingGateway core (Schema and Gateway).

Shallow embedding of `src/lib/settings/Gateway.js` and the `Schema` class
(`src/unnamed/part_001`).  JavaScript values are modelled by the inductive
type `Value` (JSON-style values plus an explicit `vUndefined` for `undefined`).
Objects are association lists in property-insertion order, mirroring the
enumeration order of plain JS objects for string keys.  Stateful code is
modelled by explicit state passing over `GW` (provider + cache tables) and
fallible code returns `Except GErr`.

Conventions used throughout (each noted again at the definition it affects):
* JS strict equality `===` on primitives is structural equality; on objects
  and arrays JS compares identities, while `Value.beq` is structural.  The
  stored ids and parsed leaf values exercised by the claims are primitives,
  where the two coincide.
* Property reads on `undefined`/`null` throw `TypeError`; property reads on
  other primitives yield `undefined`; property writes on `undefined`/`null`
  throw, while writes on other primitives are silent no-ops (the sources
  run in sloppy mode: no `use strict` directive).
* In-place mutation of a document fetched from the cache is modelled by
  functional update of the document tree; documents are assumed to be
  trees (no internal aliasing), which holds for every document built from
  schema defaults or JSON storage.
-/

namespace Klasa

/-- A JavaScript runtime value: `undefined`, `null`, booleans, numbers
(integral, which covers every value the claims exercise), strings, arrays
and plain objects.  Object fields are kept in property-insertion order. -/
inductive Value where
  | vUndefined : Value
  | vNull : Value
  | vBool : Bool → Value
  | vNum : Int → Value
  | vStr : String → Value
  | vArr : List Value → Value
  | vObj : List (String × Value) → Value
deriving Inhabited

mutual

/-- Structural equality on `Value`, used to model JS `===` / `includes` /
`indexOf` membership tests.  (JS compares object identity; the values
compared by the claims are primitives, where this coincides.) -/
def Value.beq : Value → Value → Bool
  | .vUndefined, .vUndefined => true
  | .vNull, .vNull => true
  | .vBool a, .vBool b => a == b
  | .vNum a, .vNum b => a == b
  | .vStr a, .vStr b => a == b
  | .vArr a, .vArr b => Value.beqList a b
  | .vObj a, .vObj b => Value.beqFields a b
  | _, _ => false

/-- Elementwise `Value.beq` on lists. -/
def Value.beqList : List Value → List Value → Bool
  | [], [] => true
  | a :: as, b :: bs => Value.beq a b && Value.beqList as bs
  | _, _ => false

/-- Keyed elementwise `Value.beq` on object field lists. -/
def Value.beqFields : List (String × Value) → List (String × Value) → Bool
  | [], [] => true
  | (k, v) :: as, (l, w) :: bs => k == l && Value.beq v w && Value.beqFields as bs
  | _, _ => false

end

/-- JS truthiness of a value (`undefined`, `null`, `false`, `0` and the
empty string are falsy; objects and arrays are always truthy). -/
def truthy : Value → Bool
  | .vUndefined => false
  | .vNull => false
  | .vBool b => b
  | .vNum n => n != 0
  | .vStr s => !s.isEmpty
  | .vArr _ => true
  | .vObj _ => true

/-- Embeds `v === true` (strict equality against the boolean `true`). -/
def Value.isTrue : Value → Bool
  | .vBool true => true
  | _ => false

/-- Embeds `typeof v === "undefined"`. -/
def Value.isUndefined : Value → Bool
  | .vUndefined => true
  | _ => false

/-- Field lookup in an object field list; `vUndefined` when the key is absent
(JS property reads of a missing key yield `undefined`). -/
def fsGet : List (String × Value) → String → Value
  | [], _ => .vUndefined
  | (k, v) :: rest, key => if k == key then v else fsGet rest key

/-- Field write: replaces the value in place when the key exists (property
order is preserved) and appends the key at the end otherwise, exactly like
a JS property assignment. -/
def fsSet : List (String × Value) → String → Value → List (String × Value)
  | [], key, x => [(key, x)]
  | (k, v) :: rest, key, x =>
      if k == key then (k, x) :: rest else (k, v) :: fsSet rest key x

/-- Field deletion (`delete obj[key]`). -/
def fsDel (fs : List (String × Value)) (key : String) : List (String × Value) :=
  fs.filter (fun kv => kv.1 ≠ key)

/-- Total property read: looks a key up on an object and yields `vUndefined`
on every primitive receiver.  Used only where the source cannot reach a
`null`/`undefined` receiver (short-circuited `a && a.id` chains). -/
def objGetV : Value → String → Value
  | .vObj fs, key => fsGet fs key
  | _, _ => .vUndefined

/-- Errors thrown by the embedded code.  Constructors carry the dynamic
parts of the corresponding JS error message or thrown template string:
* `typeError m`: a runtime `TypeError` (property access on
  `undefined`/`null`, or calling a method that does not exist);
* `referenceError m`: a temporal-dead-zone read of a `let`/`const`
  variable before its initialization;
* `keyDoesNotExist s`: Gateway#getPath, the thrown string
  `The key <s> does not exist in the current schema.`;
* `chooseKey ks`: Gateway#getPath, `Please, choose one of the following
  keys: <ks>` (the enumerable keys of the resolved Folder);
* `notConfigurable p`: Gateway#getPath, `The key <p> is not configureable
  in the current schema.`;
* `keyNotArray`: Gateway#_updateArray, the localized
  `COMMAND_CONF_KEY_NOT_ARRAY` message;
* `valueExists v p` / `valueMissing v p`: Gateway#_updateArray, the thrown
  duplicate-on-add / missing-on-remove template strings;
* `keyExists k` / `keyNotFound k` / `notAFolder k`: Schema structural
  errors;
* `actionTypeError`: Gateway#updateArray, invalid `action` argument. -/
inductive GErr where
  | typeError : String → GErr
  | referenceError : String → GErr
  | keyDoesNotExist : String → GErr
  | chooseKey : List String → GErr
  | notConfigurable : String → GErr
  | keyNotArray : GErr
  | valueExists : Value → String → GErr
  | valueMissing : Value → String → GErr
  | keyExists : String → GErr
  | keyNotFound : String → GErr
  | notAFolder : String → GErr
  | actionTypeError : GErr
deriving Inhabited

/-- Property read `receiver[key]` with JS error semantics: throws
`TypeError` on an `undefined` or `null` receiver, looks up on objects,
and yields `undefined` on other primitives.  (Named properties of arrays
other than their elements are not modelled; the sources never read them.) -/
def jsIndexE : Value → String → Except GErr Value
  | .vUndefined, _ => .error (.typeError "cannot read properties of undefined")
  | .vNull, _ => .error (.typeError "cannot read properties of null")
  | .vObj fs, key => .ok (fsGet fs key)
  | _, _ => .ok .vUndefined

/-- Property write `receiver[key] = x` with JS error semantics: throws on
`undefined`/`null`, updates objects, and is a silent no-op on other
primitives (sloppy mode).  Named-property writes on arrays are likewise
modelled as no-ops; the sources never perform them on reachable inputs. -/
def jsSetE : Value → String → Value → Except GErr Value
  | .vUndefined, _, _ => .error (.typeError "cannot set properties of undefined")
  | .vNull, _, _ => .error (.typeError "cannot set properties of null")
  | .vObj fs, key, x => .ok (.vObj (fsSet fs key x))
  | v, _, _ => .ok v

/-- Embeds `delete receiver[key]` restricted to objects (no-op otherwise). -/
def fsDelV : Value → String → Value
  | .vObj fs, key => .vObj (fsDel fs key)
  | v, _ => v

mutual

/-- Embeds `JSON.parse(JSON.stringify(v))`, the deep-clone idiom used by
Gateway#_updateOne and Gateway#_updateArray.  In a pure model cloning is
the identity except for the JSON round-trip quirks: object fields whose
value is `undefined` are dropped, and `undefined` array elements become
`null`.  (A top-level `undefined` is unreachable: the clone only runs on
an entry whose `default` property is `true`, hence on an object.) -/
def jsonRound : Value → Value
  | .vUndefined => .vNull
  | .vNull => .vNull
  | .vBool b => .vBool b
  | .vNum n => .vNum n
  | .vStr s => .vStr s
  | .vArr xs => .vArr (jsonRoundList xs)
  | .vObj fs => .vObj (jsonRoundFields fs)

/-- JSON round-trip on array elements (`undefined` becomes `null`). -/
def jsonRoundList : List Value → List Value
  | [] => []
  | x :: xs => jsonRound x :: jsonRoundList xs

/-- JSON round-trip on object fields (`undefined`-valued fields dropped). -/
def jsonRoundFields : List (String × Value) → List (String × Value)
  | [] => []
  | (_, .vUndefined) :: rest => jsonRoundFields rest
  | (k, v) :: rest => (k, jsonRound v) :: jsonRoundFields rest

end

/-! ## Schema tree (static shape used by the Gateway)

`Schema` instances are Folders holding named children (`this[key]`), each a
nested `Schema` (type tag `"Folder"`) or a `SchemaPiece` leaf.  The `keys`
Set, the `keyArray` and the dynamically attached child properties are kept
in sync by `_patch`/`_addKey`/`_removeKey`; the static tree below collapses
the three to one insertion-ordered child list (the bookkeeping itself is
modelled separately for the structural-mutation claim). -/

/-- A `SchemaPiece` leaf: the attributes of one field that the Gateway
reads (`path`, `type`, `array`, `default`, `configurable`). -/
structure SPiece where
  name : String
  path : String
  ptype : String
  array : Bool
  default : Value
  configurable : Bool
deriving Inhabited

/-- A schema node: a Folder with insertion-ordered named children, or a
`SchemaPiece` leaf. -/
inductive SchemaNode where
  | folder : List (String × SchemaNode) → SchemaNode
  | piece : SPiece → SchemaNode
deriving Inhabited

/-- Child lookup among the children of a Folder (`this[route[i]]`). -/
def childFind : List (String × SchemaNode) → String → Option SchemaNode
  | [], _ => none
  | (k, c) :: rest, key => if k == key then some c else childFind rest key

/-- Embeds `this.keys.has(key)` of a Folder: the `keys` Set has exactly the
child names. -/
def keysHas (cs : List (String × SchemaNode)) (key : String) : Bool :=
  (cs.map Prod.fst).contains key

mutual

/-- Embeds `Schema#defaults`: the aggregated default document of a Folder, one
field per child in insertion order (`this.defaults[key]` is maintained by
`_patch`/`_addKey`), with the declared default of each Field leaf. -/
def schemaDefaults : SchemaNode → Value
  | .folder cs => .vObj (schemaDefaultsF cs)
  | .piece p => p.default

/-- Field list of `schemaDefaults` over a child list. -/
def schemaDefaultsF : List (String × SchemaNode) → List (String × Value)
  | [] => []
  | (k, c) :: rest => (k, schemaDefaults c) :: schemaDefaultsF rest

end

/-- Embeds `Gateway#defaults` (getter): `Object.assign(this.schema.defaults,
{ default: true })` — the schema defaults document with the transient
marker field `default: true` merged in.  Note that in JS `Object.assign`
mutates its first argument, so every read of this getter also plants the
marker on the shared `schema.defaults` template itself; the pure model
returns the merged object, which is what every caller observes. -/
def gwDefaults (sch : SchemaNode) : Value :=
  match schemaDefaults sch with
  | .vObj fs => .vObj (fsSet fs "default" (.vBool true))
  | v => v

/-! ## Gateway state -/

/-- The mutable state a Gateway operation touches: the provider table and
the cache table for the type of this gateway, both keyed by target id. -/
structure GW where
  provider : List (Value × Value)
  cache : List (Value × Value)
deriving Inhabited

/-- Keyed lookup in a provider/cache table (`undefined` when absent). -/
def assocGet : List (Value × Value) → Value → Value
  | [], _ => .vUndefined
  | (k, v) :: rest, key => if Value.beq k key then v else assocGet rest key

/-- Keyed upsert in a provider/cache table (`set`/`update`/`replace` all
rewrite the full document under the key; `create` on the JSON provider
also just writes the document file). -/
def assocSet : List (Value × Value) → Value → Value → List (Value × Value)
  | [], key, x => [(key, x)]
  | (k, v) :: rest, key, x =>
      if Value.beq k key then (k, x) :: rest else (k, v) :: assocSet rest key x

/-- Embeds `output && output.id ? output.id : output`: the id-unwrapping applied
to the result of the caller-supplied `validate` function (and, in the
same shape, to parsed values). -/
def unwrapId (v : Value) : Value :=
  if truthy v && truthy (objGetV v "id") then objGetV v "id" else v

/-- Embeds `Gateway#fetchEntry` / `Gateway#getEntry` (non-`"default"` branch):
`this.cache.get(this.type, input) || this.defaults`. -/
def fetchEntry (gw : GW) (target : Value) (defs : Value) : Value :=
  let c := assocGet gw.cache target
  if truthy c then c else defs

/-! ## Gateway#getPath -/

/-- Worker of `splitDot`: accumulates the characters of the current
segment (reversed) and emits a segment at each dot and at the end. -/
def splitDotGo : List Char → List Char → List String
  | [], acc => [String.mk acc.reverse]
  | c :: rest, acc =>
      if c = '.' then String.mk acc.reverse :: splitDotGo rest []
      else splitDotGo rest (c :: acc)

/-- JS `key.split` on a dot: splits on every dot; the empty string yields
`[""]` (so a key always produces at least one segment).  Implemented
directly over the character list — `String.splitOn` agrees on these
inputs but does not reduce in the kernel. -/
def splitDot (s : String) : List String :=
  splitDotGo s.data []

/-- Dotted-path join `route.slice(0, i).join(".")`. -/
def joinDot (segs : List String) : String :=
  String.intercalate "." segs

/-- The walking loop of `Gateway#getPath`: at step `i`, throws
`The key <route.slice(0, i).join(".")> does not exist in the current
schema.` when `path.keys.has(route[i])` is false, and otherwise descends
into `path[route[i]]`.  When the current node is a `SchemaPiece` (a
non-final segment resolved to a leaf), `path.keys` is `undefined` and
`path.keys.has(...)` throws a `TypeError`. -/
def getPathWalk : SchemaNode → List String → Nat → List String → Except GErr SchemaNode
  | node, _, _, [] => .ok node
  | .piece _, _, _, _ :: _ =>
      .error (.typeError "cannot read properties of undefined, reading has")
  | .folder cs, full, i, k :: rest =>
      if keysHas cs k then
        getPathWalk ((childFind cs k).getD (.folder [])) full (i + 1) rest
      else
        .error (.keyDoesNotExist (joinDot (full.take i)))

/-- Embeds `Gateway#getPath(key = null, avoidUnconfigurable = false)`.  The
`key === null` early return is `return { path, route: [] }`, but `path`
is a `let`-binding declared only further down in the same function body,
so per the JS temporal dead zone the branch always throws a
`ReferenceError` instead of returning.  Otherwise splits the key on `.`,
walks the schema, rejects a Folder result (`chooseKey` with the
enumerable keys of the Folder, i.e. its child names), rejects a non-configurable
Field when `avoidUnconfigurable` is set, and returns the resolved Field
together with the route. -/
def gwGetPath (sch : SchemaNode) (key : Option String) (avoidUnconfigurable : Bool) :
    Except GErr (SPiece × List String) :=
  match key with
  | none => .error (.referenceError "cannot access path before initialization")
  | some k =>
      let route := splitDot k
      match getPathWalk sch route 0 route with
      | .error e => .error e
      | .ok (.folder cs) => .error (.chooseKey (cs.map Prod.fst))
      | .ok (.piece p) =>
          if avoidUnconfigurable = true && p.configurable = false then
            .error (.notConfigurable p.path)
          else
            .ok (p, route)

/-! ## Gateway entry lifecycle -/

/-- Embeds `Gateway#createEntry(input, data = this.defaults)`: resolves the
target through `validate` and the id-unwrap, then writes `data` — which
defaults to `this.defaults`, the marker-carrying defaults object — to the
provider and the cache under the resolved key.  `create` is modelled as a
keyed write (overwrite); the claims only inspect the stored content. -/
def gwCreateEntry (sch : SchemaNode) (validate : Value → Value) (gw : GW)
    (input : Value) (data : Option Value) : GW :=
  let d := data.getD (gwDefaults sch)
  let target := unwrapId (validate input)
  { provider := assocSet gw.provider target d
    cache := assocSet gw.cache target d }

/-- Embeds `Gateway#sync(input = null)`.  The `input === null` branch reloads
every provider document into the cache keyed by the own `id` of each document
property.  The non-null branch begins with
`const target = await this.validate(target)...`, which reads the
`const`-bound `target` inside its own initializer: per the JS temporal
dead zone this always throws a `ReferenceError`, before any provider or
cache access. -/
def gwSync (gw : GW) (input : Option Value) : Except GErr (Bool × GW) :=
  match input with
  | none =>
      let docs := gw.provider.map Prod.snd
      .ok (true, { gw with
        cache := docs.foldl (fun c d => assocSet c (objGetV d "id") d) gw.cache })
  | some _ => .error (.referenceError "cannot access target before initialization")

/-- The loop of `Gateway#_reset(target, route, parsed)`: walks the fetched
entry along `route`, materializing `{}` at an `undefined` step, writes
`parsedID` at the final segment, and evaluates to the **local variable
`cache` at loop exit** — the object holding the leaf, i.e. the sub-object
at `route.dropLast`, not the root document (the root is only reached again
when the route has a single segment).  In-place mutation is modelled by
functional update of the current object; ancestors of the current object
are irrelevant here because only this loop value is returned. -/
def resetLoop : Value → List String → Value → Except GErr Value
  | cur, [], _ => .ok cur
  | cur, [k], p => do
      let g ← jsIndexE cur k
      let cur1 ← if g.isUndefined then jsSetE cur k (.vObj []) else pure cur
      jsSetE cur1 k p
  | cur, k :: rest, p => do
      let g ← jsIndexE cur k
      let cur1 ← if g.isUndefined then jsSetE cur k (.vObj []) else pure cur
      let nxt ← jsIndexE cur1 k
      resetLoop nxt rest p

/-- Embeds `Gateway#reset(target, key, guild, avoidUnconfigurable)` composed with
`Gateway#_reset`: resolves the target and the path, re-parses the declared
default of the Field through the parser of the Field (`path.parse(path.default,
guild)`, the external parser is the `parse` parameter with the guild
argument absorbed), unwraps `parsed && parsed.id ? parsed.id : parsed`,
runs the `_reset` loop on the fetched entry (no clone, no marker removal),
and persists **the result value of the loop** via
`this.provider.update(this.type, target, result)`.  Returns
`{ value: parsed.data, path }`; the `parsed.data` read is a genuine JS
property access that throws a `TypeError` when the parser resolved to
`null` or `undefined` (`jsIndexE`).  In the source that read runs only
after the provider write, so a `TypeError` there rejects the call with
the write already performed; the `Except`-typed model cannot carry state
past an error, and the claims exercise only the non-throwing path.  The
in-place JS mutation also rewrites the aliased cache entry; the model
keeps the cache map unchanged since the claim under verification concerns
the provider write and return value. -/
def gwReset (sch : SchemaNode) (parse : SPiece → Value → Value)
    (validate : Value → Value) (gw : GW) (input : Value) (key : String)
    (avoidUnconfigurable : Bool) : Except GErr ((Value × SPiece) × GW) := do
  let target := unwrapId (validate input)
  let (fld, route) ← gwGetPath sch (some key) avoidUnconfigurable
  let parsed := parse fld fld.default
  let parsedID := if truthy parsed && truthy (objGetV parsed "id") then
      objGetV parsed "id" else parsed
  let cache0 := fetchEntry gw target (gwDefaults sch)
  let result ← resetLoop cache0 route parsedID
  let value ← jsIndexE parsed "data"
  .ok ((value, fld),
       { gw with provider := assocSet gw.provider target result })

/-- What `_updateOne`/`_updateArray` hand back to their public wrappers:
the parse result, the resolved Field, the route, the full mutated document
(`settings`/`fullObject`) and the state after the cache write. -/
structure InnerRes where
  parsed : Value
  fld : SPiece
  route : List String
  settings : Value
  gwOut : GW

/-- The walking loop of `Gateway#_updateOne` over `route.dropLast`:
`if (typeof cache[route[i]] === "undefined") cache[route[i]] = {};
else cache = cache[route[i]];` — when the step is missing it creates the
empty object **but stays at the current depth** (the `else`), and then
the final segment is assigned at whatever depth the walk reached.
Evaluates to the new full value of the position it was entered at. -/
def updOneWalk : Value → List String → String → Value → Except GErr Value
  | cur, [], last, p => jsSetE cur last p
  | cur, k :: rest, last, p => do
      let g ← jsIndexE cur k
      if g.isUndefined then do
        let cur1 ← jsSetE cur k (.vObj [])
        updOneWalk cur1 rest last p
      else do
        let sub ← updOneWalk g rest last p
        jsSetE cur k sub

/-- Embeds `route[route.length - 1]` together with `route.slice(0, -1)`.  A
route from `String.splitOn` is never empty; the empty case mirrors the
out-of-range JS index (property name `"undefined"`) and is unreachable. -/
def splitLast : List String → List String × String
  | [] => ([], "undefined")
  | [k] => ([], k)
  | k :: rest => ((k :: (splitLast rest).1 : List String), (splitLast rest).2)

/-- The walking loop of `Gateway#_updateArray` over `route.dropLast`
followed by the array mutation applied to the final `cache` of the loop:
`if (typeof cache[route[i]] === "undefined") cache[route[i]] = {};
cache = cache[route[i]];` — no `else`: it always descends.  The array
action (`op`) is then applied to the object the walk ends on, i.e. the
object at the **parent** of the resolved route.  Evaluates to the new
full value of the position it was entered at. -/
def updArrWalk : Value → List String → (Value → Except GErr Value) → Except GErr Value
  | cur, [], op => op cur
  | cur, k :: rest, op => do
      let g ← jsIndexE cur k
      let cur1 ← if g.isUndefined then jsSetE cur k (.vObj []) else pure cur
      let g2 ← jsIndexE cur1 k
      let sub ← updArrWalk g2 rest op
      jsSetE cur1 k sub

/-- The `action === "add"` branch of `Gateway#_updateArray`:
`if (cache.includes(parsedID)) throw ...; cache.push(parsedID);`.
On an array this is a duplicate check then an append; on an object (and
on `null`-free primitives, which have no `includes`/`push` methods) it is
a `TypeError`.  A genuine JS string receiver would run
`String.prototype.includes` first; strings are unreachable here for
schema-shaped documents and are folded into the `TypeError` case. -/
def arrayAddOp (parsedID : Value) (fpath : String) : Value → Except GErr Value
  | .vArr xs =>
      if xs.any (fun x => Value.beq x parsedID) then
        .error (.valueExists parsedID fpath)
      else .ok (.vArr (xs ++ [parsedID]))
  | _ => .error (.typeError "includes is not a function")

/-- The `action === "remove"` branch of `Gateway#_updateArray`:
`const index = cache.indexOf(parsedID); if (index === -1) throw ...;
cache.splice(index, 1);`. -/
def arrayRemoveOp (parsedID : Value) (fpath : String) : Value → Except GErr Value
  | .vArr xs =>
      match xs.findIdx? (fun x => Value.beq x parsedID) with
      | none => .error (.valueMissing parsedID fpath)
      | some i => .ok (.vArr (xs.eraseIdx i))
  | _ => .error (.typeError "indexOf is not a function")

/-- Embeds `Gateway#_updateArray(target, action, key, value, guild,
avoidUnconfigurable)`: resolves the path, rejects non-array Fields,
parses the value and unwraps `parsed.data`, fetches the entry (cloning
away the `default` marker if present), walks `route.dropLast` and applies
the array action **to the final object of the walk** (see `updArrWalk`), then
writes the full document to the cache. -/
def gwUpdateArrayInner (sch : SchemaNode) (parse : SPiece → Value → Value)
    (gw : GW) (target : Value) (action : String) (key : String) (value : Value)
    (avoidUnconfigurable : Bool) : Except GErr InnerRes := do
  let (fld, route) ← gwGetPath sch (some key) avoidUnconfigurable
  if fld.array = false then
    .error .keyNotArray
  else do
    let parsed := parse fld value
    let pd := objGetV parsed "data"
    let parsedID := if truthy pd && truthy (objGetV pd "id") then
        objGetV pd "id" else pd
    let cache0 := fetchEntry gw target (gwDefaults sch)
    let cache1 := if (objGetV cache0 "default").isTrue then
        fsDelV (jsonRound cache0) "default" else cache0
    let op := if action == "add" then arrayAddOp parsedID fld.path
              else arrayRemoveOp parsedID fld.path
    let settings ← updArrWalk cache1 (splitLast route).1 op
    .ok { parsed, fld, route, settings,
          gwOut := { gw with cache := assocSet gw.cache target settings } }

/-- Embeds `Gateway#_updateOne(target, key, value, guild, avoidUnconfigurable)`:
resolves the path; when the Field is array-typed delegates to
`_updateArray` with the fixed action `"add"`; otherwise parses the value,
unwraps `parsed.data`, fetches the entry (cloning away the `default`
marker if present), runs the `_updateOne` walk (see `updOneWalk`) and
writes the full document to the cache. -/
def gwUpdateOneInner (sch : SchemaNode) (parse : SPiece → Value → Value)
    (gw : GW) (target : Value) (key : String) (value : Value)
    (avoidUnconfigurable : Bool) : Except GErr InnerRes := do
  let (fld, route) ← gwGetPath sch (some key) avoidUnconfigurable
  if fld.array = true then
    gwUpdateArrayInner sch parse gw target "add" key value avoidUnconfigurable
  else do
    let parsed := parse fld value
    let pd := objGetV parsed "data"
    let parsedID := if truthy pd && truthy (objGetV pd "id") then
        objGetV pd "id" else pd
    let cache0 := fetchEntry gw target (gwDefaults sch)
    let cache1 := if (objGetV cache0 "default").isTrue then
        fsDelV (jsonRound cache0) "default" else cache0
    let settings ← updOneWalk cache1 (splitLast route).1 (splitLast route).2 parsedID
    .ok { parsed, fld, route, settings,
          gwOut := { gw with cache := assocSet gw.cache target settings } }

/-- Shared tail of `Gateway#updateOne` / `Gateway#updateArray`:
`await this.provider.update(this.type, target, settings);
return { value: parsed.data, path };`. -/
def gwFinish (target : Value) (r : InnerRes) : (Value × SPiece) × GW :=
  ((objGetV r.parsed "data", r.fld),
   { r.gwOut with provider := assocSet r.gwOut.provider target r.settings })

/-- Embeds `Gateway#updateOne(target, key, value, guild, avoidUnconfigurable)`:
resolves the target (guild resolution is absorbed into the external
`parse` parameter), runs `_updateOne`, persists the returned `settings`
document to the provider and returns `{ value: parsed.data, path }`. -/
def gwUpdateOne (sch : SchemaNode) (parse : SPiece → Value → Value)
    (validate : Value → Value) (gw : GW) (input : Value) (key : String)
    (value : Value) (avoidUnconfigurable : Bool) :
    Except GErr ((Value × SPiece) × GW) :=
  let target := unwrapId (validate input)
  (gwUpdateOneInner sch parse gw target key value avoidUnconfigurable).map
    (gwFinish target)

/-- Embeds `Gateway#updateArray(target, action, key, value, guild,
avoidUnconfigurable)`: rejects an action other than `"add"`/`"remove"`
with a `TypeError` before any I/O, then resolves the target, runs
`_updateArray`, persists `settings` to the provider and returns
`{ value: parsed.data, path }`. -/
def gwUpdateArray (sch : SchemaNode) (parse : SPiece → Value → Value)
    (validate : Value → Value) (gw : GW) (input : Value) (action : String)
    (key : String) (value : Value) (avoidUnconfigurable : Bool) :
    Except GErr ((Value × SPiece) × GW) :=
  if action == "add" || action == "remove" then
    let target := unwrapId (validate input)
    (gwUpdateArrayInner sch parse gw target action key value avoidUnconfigurable).map
      (gwFinish target)
  else .error .actionTypeError

/-! ## Schema#force (migration propagation, non-SQL branch) -/

/-- The per-document body of `Schema#force`: walks
`path = this.path.split(".")` with `object = object[path[i]]` for every
segment, then runs `delete object[key]` or `object[key] = value` on the
walked object; the whole (in-place mutated) root document is what gets
rewritten.  Evaluates to the new value of the position it was entered at;
reads or writes on an `undefined`/`null` step throw `TypeError`. -/
def forceWalk (cur : Value) (segs : List String)
    (apply : List (String × Value) → List (String × Value)) : Except GErr Value :=
  match segs with
  | [] =>
      match cur with
      | .vUndefined => .error (.typeError "cannot set properties of undefined")
      | .vNull => .error (.typeError "cannot set properties of null")
      | .vObj fs => .ok (.vObj (apply fs))
      | v => .ok v
  | k :: rest => do
      let g ← jsIndexE cur k
      let sub ← forceWalk g rest apply
      match cur with
      | .vObj fs => .ok (.vObj (fsSet fs k sub))
      | v => .ok v

/-- The document rewriting of `Schema#force(action, key, schemaPiece)` in
the non-SQL branch: fetches every stored document (`provider.getAll`),
computes `value = action === "add" ? this.defaults[key] : null`, mutates
each document at the path of this Folder and rewrites it under its own `id`
(`provider.replace`) when that id is truthy.  `folderPath` is
`this.path` (the empty string at the schema root, whose
splitting the empty path on the dot gives one empty segment) and
`folderDefaults` is the `defaults` object of this Folder. -/
def schemaForce (folderPath : String) (folderDefaults : List (String × Value))
    (action : String) (key : String) (prov : List (Value × Value)) :
    Except GErr (List (Value × Value)) :=
  let value := if action == "add" then fsGet folderDefaults key else .vNull
  let segs := splitDot folderPath
  let apply := fun fs => if action == "delete" then fsDel fs key else fsSet fs key value
  go (prov.map Prod.snd) apply segs value prov
where
  /-- Sequential fold over the `getAll` snapshot (the `Promise.all` writes
  are independent per document). -/
  go : List Value → (List (String × Value) → List (String × Value)) →
      List String → Value → List (Value × Value) → Except GErr (List (Value × Value))
  | [], _, _, _, st => .ok st
  | d :: rest, apply, segs, value, st => do
      let d1 ← forceWalk d segs apply
      let st1 := if truthy (objGetV d1 "id") then assocSet st (objGetV d1 "id") d1 else st
      go rest apply segs value st1

/-! ## Schema structural mutation bookkeeping

The structural operations `addKey` / `addFolder` / `removeKey` /
`removeFolder` maintain three synchronized containers on a Folder: the
`keys` Set, the `keyArray` and the dynamically attached child properties.
`FolderState` is the projection of a `Schema` instance to exactly that
bookkeeping (children reduced to their names and type tags; the nested
node contents, `defaults` maintenance and schema-file persistence do not
feed back into it).  Every `throw` in the sources happens before any of
the three containers is touched, so a failing operation leaves the state
unchanged; the option validation of `addKey` (whose failures likewise
precede `_addKey`) is treated as passed. -/

/-- Embeds `"Folder"` versus `SchemaPiece` type tag of a child. -/
inductive NodeKind where
  | folderK : NodeKind
  | pieceK : NodeKind
deriving DecidableEq

/-- The keys/keyArray/children bookkeeping of one Folder. -/
structure FolderState where
  keys : List String
  keyArray : List String
  children : List (String × NodeKind)
deriving DecidableEq

/-- A fresh Folder (`new Schema(..., {}, path)`). -/
def emptyFolder : FolderState := ⟨[], [], []⟩

/-- Embeds `this.keys.add(key)`: a JS Set add (no-op when present). -/
def setAdd (s : List String) (k : String) : List String :=
  if s.contains k then s else s ++ [k]

/-- Embeds `typeof this[key] !== "undefined"` restricted to child properties
(the guard used by `addKey`/`addFolder`). -/
def hasProp (st : FolderState) (k : String) : Bool :=
  (st.children.map Prod.fst).contains k

/-- Lexicographic codepoint comparison of character lists, the order
underlying `a.localeCompare(b)` on the ASCII key names schemas use. -/
def charListLe : List Char → List Char → Bool
  | [], _ => true
  | _ :: _, [] => false
  | a :: as, b :: bs =>
      if a.toNat < b.toNat then true
      else if b.toNat < a.toNat then false
      else charListLe as bs

/-- Lexicographic string comparison (see `charListLe`). -/
def strLe (a b : String) : Bool :=
  charListLe a.data b.data

/-- String comparison used by `keyArray.sort((a, b) => a.localeCompare(b))`,
modelled as a sort by lexicographic `strLe`. -/
def sortKeys (l : List String) : List String :=
  List.insertionSort (fun a b => strLe a b = true) l

/-- Embeds `Schema#addFolder(key, object, force)` bookkeeping: guard on
`typeof this[key] !== "undefined"`, then `this.keys.add(key);
this.keyArray.push(key); this[key] = new Schema(...)` — note there is
**no re-sort** of `keyArray` here, unlike `_addKey`. -/
def addFolderOp (st : FolderState) (k : String) : Except GErr FolderState :=
  if hasProp st k then .error (.keyExists k)
  else .ok { keys := setAdd st.keys k
             keyArray := st.keyArray ++ [k]
             children := st.children ++ [(k, .folderK)] }

/-- Embeds `Schema#addKey` → `Schema#_addKey` bookkeeping: guard on
`typeof this[key] !== "undefined"` (the option checks, all of which throw
before `_addKey`, are treated as passed), then `this.keys.add(key);
this.keyArray.push(key); this.keyArray.sort((a, b) => a.localeCompare(b));
this[key] = new SchemaPiece(...)`. -/
def addKeyOp (st : FolderState) (k : String) : Except GErr FolderState :=
  if hasProp st k then .error (.keyExists k)
  else .ok { keys := setAdd st.keys k
             keyArray := sortKeys (st.keyArray ++ [k])
             children := st.children ++ [(k, .pieceK)] }

/-- Embeds `Schema#_removeKey(key)`: `const index = this.keyArray.indexOf(key);
if (index === -1) throw ...; this.keys.delete(key);
this.keyArray.splice(index, 1); delete this[key];`.  A splice of one
element at `indexOf` removes the first occurrence. -/
def removeKeyInner (st : FolderState) (k : String) : Except GErr FolderState :=
  let i := st.keyArray.indexOf k
  if i < st.keyArray.length then
    .ok { keys := st.keys.erase k
          keyArray := st.keyArray.eraseIdx i
          children := st.children.filter (fun kv => kv.1 ≠ k) }
  else .error (.keyNotFound k)

/-- Embeds `Schema#removeKey(key, force)` bookkeeping: guard on
`this.hasKey(key)` (the `keys` Set), then `_removeKey`. -/
def removeKeyOp (st : FolderState) (k : String) : Except GErr FolderState :=
  if st.keys.contains k then removeKeyInner st k
  else .error (.keyNotFound k)

/-- Embeds `Schema#removeFolder(key, force)` bookkeeping: guards on the `keys`
Set and on `this[key].type === "Folder"`, then `_removeKey`. -/
def removeFolderOp (st : FolderState) (k : String) : Except GErr FolderState :=
  if st.keys.contains k then
    match (st.children.lookup k).getD .pieceK with
    | .folderK => removeKeyInner st k
    | .pieceK => .error (.notAFolder k)
  else .error (.keyNotFound k)

/-- One structural mutation request against a Folder. -/
inductive SOp where
  | addKey : String → SOp
  | addFolder : String → SOp
  | removeKey : String → SOp
  | removeFolder : String → SOp
deriving DecidableEq

/-- Dispatch of one structural mutation. -/
def runOp (st : FolderState) : SOp → Except GErr FolderState
  | .addKey k => addKeyOp st k
  | .addFolder k => addFolderOp st k
  | .removeKey k => removeKeyOp st k
  | .removeFolder k => removeFolderOp st k

/-- A failing structural mutation throws before mutating, so it leaves
the Folder unchanged. -/
def applyOp (st : FolderState) (op : SOp) : FolderState :=
  match runOp st op with
  | .ok s => s
  | .error _ => st

/-- A sequence of structural mutations applied left to right. -/
def applyOps (st : FolderState) : List SOp → FolderState
  | [] => st
  | op :: rest => applyOps (applyOp st op) rest

/-- Whether an operation is an `addFolder` (the one structural mutation
that appends to `keyArray` without re-sorting). -/
def SOp.isAddFolder : SOp → Bool
  | .addFolder _ => true
  | _ => false

/-! ## Specification-side path resolution (for the amended resolution claim)

`specResolve` is written from the amended specification words rather than
from the loop in the source: it carries the list of already-consumed
segments and, when a segment is not a child of the current Folder, fails
with a key-does-not-exist error naming the dotted join of the segments
strictly **before** the missing one (empty when the first segment is
missing).  A non-final segment that resolves to a Field fails with the
`TypeError` that reading `keys` of a `SchemaPiece` produces. -/

/-- Specification-side walk; `done` is the list of consumed segments. -/
def specResolve : SchemaNode → List String → List String → Except GErr SchemaNode
  | node, _, [] => .ok node
  | .piece _, _, _ :: _ =>
      .error (.typeError "cannot read properties of undefined, reading has")
  | .folder cs, done, k :: rest =>
      match childFind cs k with
      | none => .error (.keyDoesNotExist (joinDot done))
      | some c => specResolve c (done ++ [k]) rest

/-- Specification-side `getPath` on a non-null key, assembled from
`specResolve` plus the Folder-result, configurability and success rules
of the original claim. -/
def specGetPath (sch : SchemaNode) (key : String) (avoidUnconfigurable : Bool) :
    Except GErr (SPiece × List String) :=
  let route := splitDot key
  match specResolve sch [] route with
  | .error e => .error e
  | .ok (.folder cs) => .error (.chooseKey (cs.map Prod.fst))
  | .ok (.piece p) =>
      if avoidUnconfigurable = true && p.configurable = false then
        .error (.notConfigurable p.path)
      else
        .ok (p, route)

/-! ## Concrete fixtures

Small schemas, documents and external collaborators used to evaluate the
embedded operations at the concrete inputs of the claims.  `idValidate`
is a target-resolution function that accepts the canonical id unchanged;
`dataParse` is a field parser in the shape of the SettingResolver results
(an object `{ data: normalizedValue }`, so that the `parsed.data` reads
of the source are object property accesses that succeed). -/

/-- A validate function returning the input unchanged (canonical ids). -/
def idValidate : Value → Value := fun v => v

/-- A field parser wrapping the raw value as `{ data: value }`. -/
def dataParse : SPiece → Value → Value := fun _ v => .vObj [("data", v)]

/-- A plain string field `pfx` with declared default `"!"`. -/
def pfxPiece : SPiece := ⟨"pfx", "pfx", "string", false, .vStr "!", true⟩

/-- A schema with the single field `pfx`. -/
def pfxSchema : SchemaNode := .folder [("pfx", .piece pfxPiece)]

/-- A gateway with empty provider and cache tables. -/
def gwEmpty : GW := ⟨[], []⟩

/-- The nested channel-reference field `channels.modlogs` (default null). -/
def modlogsPiece : SPiece :=
  ⟨"modlogs", "channels.modlogs", "textchannel", false, .vNull, true⟩

/-- The nested string field `channels.topic` (default `"t"`). -/
def topicPiece : SPiece := ⟨"topic", "channels.topic", "string", false, .vStr "t", true⟩

/-- A schema with a `channels` folder (fields `modlogs`, `topic`) and a
root field `pfx`. -/
def channelsSchema : SchemaNode :=
  .folder [("channels", .folder [("modlogs", .piece modlogsPiece),
                                 ("topic", .piece topicPiece)]),
           ("pfx", .piece pfxPiece)]

/-- A fully populated stored document for target `g1` under
`channelsSchema`. -/
def channelsDoc : Value :=
  .vObj [("id", .vStr "g1"),
         ("channels", .vObj [("modlogs", .vStr "267727088465739778"),
                             ("topic", .vStr "t")]),
         ("pfx", .vStr "!")]

/-- A gateway whose provider and cache both hold `channelsDoc` under
`g1`. -/
def channelsGw : GW := ⟨[(.vStr "g1", channelsDoc)], [(.vStr "g1", channelsDoc)]⟩

/-- A schema holding only the nested field `channels.modlogs`. -/
def nestedOnlySchema : SchemaNode :=
  .folder [("channels", .folder [("modlogs", .piece modlogsPiece)])]

/-- A stored document for `g1` that lacks the `channels` sub-object. -/
def bareDoc : Value := .vObj [("id", .vStr "g1")]

/-- A gateway whose provider and cache both hold `bareDoc` under `g1`. -/
def bareGw : GW := ⟨[(.vStr "g1", bareDoc)], [(.vStr "g1", bareDoc)]⟩

/-- The array-typed user-reference field `users` (default `[]`). -/
def usersPiece : SPiece := ⟨"users", "users", "user", true, .vArr [], true⟩

/-- A schema with the single array field `users`. -/
def usersSchema : SchemaNode := .folder [("users", .piece usersPiece)]

/-- A stored document for `g1` with an empty `users` array. -/
def usersDoc : Value := .vObj [("id", .vStr "g1"), ("users", .vArr [])]

/-- A gateway whose provider and cache both hold `usersDoc` under `g1`. -/
def usersGw : GW := ⟨[(.vStr "g1", usersDoc)], [(.vStr "g1", usersDoc)]⟩

/-- A provider-only gateway state for the sync claim: one stored document
under `g1`, empty cache. -/
def syncGw : GW := ⟨[(.vStr "g1", .vObj [("id", .vStr "g1"), ("pfx", .vStr "!")])], []⟩

/-- The invariant the bookkeeping claim is about, as a reusable predicate:
the `keys` Set, the `keyArray` and the child properties agree in
membership, and the two list-shaped containers are duplicate-free. -/
structure FolderInv (st : FolderState) : Prop where
  keys_keyArray : ∀ k, k ∈ st.keys ↔ k ∈ st.keyArray
  children_keyArray : ∀ k, k ∈ st.children.map Prod.fst ↔ k ∈ st.keyArray
  nodup_keyArray : st.keyArray.Nodup
  nodup_keys : st.keys.Nodup

/-! ## Theorems -/

/-- C1: For every gateway operation, the transient `default` marker
boolean appears only on entries synthesized on the fly and is never
persisted; `createEntry` without explicit data writes a marker-free
document, and every in-place mutation of a synthesized entry first
deep-clones it and removes the marker.  **The code does the opposite**:
`Gateway#defaults` is `Object.assign(this.schema.defaults,
{ default: true })`, so `createEntry("g1")` with the defaulted `data`
argument persists a document whose `default` field is `true` to both
provider and cache (first conjunct), and `Gateway#reset` on a target with
no stored entry feeds the marker-carrying defaults object to `_reset`,
which mutates it without any clone and persists the marker as part of the
document (second conjunct, with the object-returning parser `dataParse`
standing in for the external SettingResolver).  (In JS the
`Object.assign` additionally plants the marker on the shared
`schema.defaults` template in place.) -/
theorem c1_default_marker_persisted :
    objGetV (assocGet (gwCreateEntry pfxSchema idValidate gwEmpty
        (.vStr "g1") none).provider (.vStr "g1")) "default" = .vBool true ∧
    (gwReset pfxSchema dataParse idValidate gwEmpty (.vStr "g1") "pfx" false).map
        (fun r => objGetV (assocGet r.2.provider (.vStr "g1")) "default") =
      .ok (.vBool true) :=
  ⟨rfl, rfl⟩

/-- C2: reset is claimed to persist the whole updated document
(whole-document update semantics), leaving every other field intact.
**The code persists the loop value of `_reset` instead**, which for the
two-segment route `channels.modlogs` is the `channels` sub-object: with
the object-returning parser `dataParse` (the parse result is
`{ data: null }`, and `_reset` stores `parsed` itself since it has no
`id`), the stored document for `g1` becomes
`{ modlogs: { data: null }, topic: "t" }`, losing the `id` and `pfx`
fields and the `channels` nesting (the prior document had them, last two
conjuncts), while the returned value is `parsed.data = null`. -/
theorem c2_reset_persists_inner_object :
    gwReset channelsSchema dataParse idValidate channelsGw (.vStr "g1")
        "channels.modlogs" false =
      .ok ((.vNull, modlogsPiece),
           { channelsGw with provider :=
              [(.vStr "g1", .vObj [("modlogs", .vObj [("data", .vNull)]),
                                   ("topic", .vStr "t")])] }) ∧
    objGetV (.vObj [("modlogs", .vObj [("data", .vNull)]), ("topic", .vStr "t")])
        "id" = .vUndefined ∧
    objGetV channelsDoc "id" = .vStr "g1" :=
  ⟨rfl, rfl, rfl⟩

/-- C3: `Schema#force` with action `add` is claimed to write the new
default of the new key into every stored document at the path of the folder, including
for the schema root (empty path).  **At the root the code crashes**:
splitting the empty path on the dot gives the one-element list holding
the empty segment, so the per-document walk reads the empty-named field
(which is `undefined`) and the write throws a `TypeError` (first
conjunct).  For a non-root folder the add and delete rewrites do work,
leaving sibling fields undisturbed (second and third conjuncts). -/
theorem c3_force_root_crashes :
    schemaForce "" [("modlogs", .vNull)] "add" "modlogs"
        [(.vStr "g1", .vObj [("id", .vStr "g1"), ("pfx", .vStr "!")])] =
      .error (.typeError "cannot set properties of undefined") ∧
    schemaForce "channels" [("modlogs", .vNull)] "add" "modlogs"
        [(.vStr "g1", .vObj [("id", .vStr "g1"),
            ("channels", .vObj [("topic", .vStr "t")])])] =
      .ok [(.vStr "g1", .vObj [("id", .vStr "g1"),
            ("channels", .vObj [("topic", .vStr "t"), ("modlogs", .vNull)])])] ∧
    schemaForce "channels" [("modlogs", .vNull)] "delete" "modlogs"
        [(.vStr "g1", .vObj [("id", .vStr "g1"),
            ("channels", .vObj [("modlogs", .vNull), ("topic", .vStr "t")])])] =
      .ok [(.vStr "g1", .vObj [("id", .vStr "g1"),
            ("channels", .vObj [("topic", .vStr "t")])])] :=
  ⟨rfl, rfl, rfl⟩

/-- C5: `Gateway#sync` with a non-null input is claimed to resolve the
input, read that document from the provider and store it in the cache.
**The non-null branch always throws instead**: it begins with
`const target = await this.validate(target)`, reading `target` inside its
own initializer, a temporal-dead-zone `ReferenceError` (first conjunct).
The `input === null` branch does reload every provider document into the
cache as claimed (second conjunct). -/
theorem c5_sync_single_target_throws :
    gwSync syncGw (some (.vStr "g1")) =
      .error (.referenceError "cannot access target before initialization") ∧
    gwSync syncGw none =
      .ok (true, { syncGw with cache :=
        [(.vStr "g1", .vObj [("id", .vStr "g1"), ("pfx", .vStr "!")])] }) :=
  ⟨rfl, rfl⟩

/-- C6: `updateOne` is claimed to create missing intermediate objects
along the route and set the parsed value at the full route depth.  **When
an intermediate is missing the leaf lands one level too high**: the walk
creates `cache[route[i]] = {}` but (because of the `else`) does not step
into it, so updating `channels.modlogs` on a document without a
`channels` sub-object yields `{ id: "g1", channels: {}, modlogs: <v> }`
in both cache and provider — `modlogs` at the root and an empty
`channels` — instead of `{ id: "g1", channels: { modlogs: <v> } }`
(the second conjunct pins the claimed location empty). -/
theorem c6_updateone_sets_leaf_at_wrong_depth :
    gwUpdateOne nestedOnlySchema dataParse idValidate bareGw (.vStr "g1")
        "channels.modlogs" (.vStr "267727088465739778") false =
      .ok ((.vStr "267727088465739778", modlogsPiece),
        { provider := [(.vStr "g1", .vObj [("id", .vStr "g1"),
            ("channels", .vObj []),
            ("modlogs", .vStr "267727088465739778")])],
          cache := [(.vStr "g1", .vObj [("id", .vStr "g1"),
            ("channels", .vObj []),
            ("modlogs", .vStr "267727088465739778")])] }) ∧
    objGetV (objGetV (.vObj [("id", .vStr "g1"), ("channels", .vObj []),
        ("modlogs", .vStr "267727088465739778")]) "channels") "modlogs" = .vUndefined :=
  ⟨rfl, rfl⟩

/-- C8: `updateArray` is claimed to duplicate-check/append (`add`) and
membership-check/remove (`remove`) **on the array at the resolved route**.
The walk loop runs only to `route.length - 1`, so `includes`/`push`/
`indexOf`/`splice` are invoked on the object at the parent of the route — for
the top-level array field `users`, on the document object itself — which
throws a `TypeError` before any cache or provider write, even on the
concrete scenario of the spec itself (`add`/`remove` of a user id on
`{ users: [] }`). -/
theorem c8_updatearray_operates_on_parent :
    gwUpdateArray usersSchema dataParse idValidate usersGw (.vStr "g1") "add"
        "users" (.vStr "146048938242211840") false =
      .error (.typeError "includes is not a function") ∧
    gwUpdateArray usersSchema dataParse idValidate usersGw (.vStr "g1") "remove"
        "users" (.vStr "146048938242211840") false =
      .error (.typeError "indexOf is not a function") :=
  ⟨rfl, rfl⟩

/-- C10: `getPath` called with its documented default `key = null` never
returns the `{ path, route: [] }` early result: the branch reads the local
`let path` before its declaration, so the call always throws (modelled as
the temporal-dead-zone `ReferenceError`), for every schema and either
value of `avoidUnconfigurable`. -/
theorem c10_getpath_null_always_throws (sch : SchemaNode) (avoid : Bool) :
    gwGetPath sch none avoid =
      .error (.referenceError "cannot access path before initialization") :=
  rfl

/-- C4 counterexample: after `addKey "b"` followed by `addFolder "a"`,
`keyArray` is `["b", "a"]` — `addFolder` appends without re-sorting, so
the ordered sequence is **not** alphabetically sorted, refuting the claim
that it is sorted after every structural change. -/
theorem c4_counterexample :
    (applyOps emptyFolder [SOp.addKey "b", SOp.addFolder "a"]).keyArray = ["b", "a"] ∧
    ¬ List.Sorted (fun a b => strLe a b = true)
        (applyOps emptyFolder [SOp.addKey "b", SOp.addFolder "a"]).keyArray :=
  ⟨rfl, by decide⟩

/-- C7 counterexample: the key-does-not-exist error does **not** name the
first missing segment.  Resolving `missing` against a schema without that
key throws `The key  does not exist...` naming the empty string (the join
of `route.slice(0, i)` with `i = 0`), and resolving `channels.bad` names
`channels` — in both cases the dotted join of the segments before the missing
one, never the missing segment itself. -/
theorem c7_counterexample :
    gwGetPath pfxSchema (some "missing") false = .error (.keyDoesNotExist "") ∧
    ("" : String) ≠ "missing" ∧
    gwGetPath channelsSchema (some "channels.bad") false =
      .error (.keyDoesNotExist "channels") ∧
    ("channels" : String) ≠ "bad" :=
  ⟨rfl, by decide, rfl, by decide⟩

/-! ### Helper lemmas for the bookkeeping invariant -/

/-- Totality of `charListLe`. -/
theorem charListLe_total (as : List Char) :
    ∀ bs, charListLe as bs = true ∨ charListLe bs as = true := by
  induction as with
  | nil => intro bs; left; rfl
  | cons a as ih =>
      intro bs
      cases bs with
      | nil => right; rfl
      | cons b bs =>
          rcases Nat.lt_trichotomy a.toNat b.toNat with h | h | h
          · left; simp [charListLe, h]
          · rcases ih bs with h2 | h2
            · left; simp [charListLe, h, h2]
            · right; simp [charListLe, h, h2]
          · right; simp [charListLe, h]

/-- Transitivity of `charListLe`. -/
theorem charListLe_trans (as : List Char) :
    ∀ bs cs, charListLe as bs = true → charListLe bs cs = true →
      charListLe as cs = true := by
  induction as with
  | nil => intro bs cs _ _; rfl
  | cons a as ih =>
      intro bs cs hab hbc
      cases bs with
      | nil => simp [charListLe] at hab
      | cons b bs =>
          cases cs with
          | nil => simp [charListLe] at hbc
          | cons c cs =>
              simp only [charListLe] at hab hbc ⊢
              split_ifs at hab hbc ⊢ <;>
                first
                | rfl
                | (exfalso; omega)
                | (exact ih bs cs hab hbc)

/-- The sort performed by `_addKey` produces a lexicographically sorted
sequence. -/
theorem sortKeys_sorted (l : List String) :
    List.Sorted (fun a b => strLe a b = true) (sortKeys l) :=
  @List.sorted_insertionSort String (fun a b => strLe a b = true) _
    ⟨fun a b => charListLe_total a.data b.data⟩
    ⟨fun a b c => charListLe_trans a.data b.data c.data⟩ l

/-- The sort performed by `_addKey` preserves membership. -/
theorem sortKeys_mem (l : List String) (x : String) : x ∈ sortKeys l ↔ x ∈ l :=
  (List.perm_insertionSort _ l).mem_iff

/-- The sort performed by `_addKey` preserves duplicate-freedom. -/
theorem sortKeys_nodup (l : List String) (h : l.Nodup) : (sortKeys l).Nodup :=
  ((List.perm_insertionSort _ l).nodup_iff).mpr h

/-- Appending a fresh element preserves duplicate-freedom. -/
theorem nodup_append_singleton {l : List String} {k : String} (h : l.Nodup)
    (hk : k ∉ l) : (l ++ [k]).Nodup := by
  simp [List.nodup_append, h, hk]

/-- The fresh Folder satisfies the bookkeeping invariant. -/
theorem folderInv_empty : FolderInv emptyFolder :=
  ⟨by simp [emptyFolder], by simp [emptyFolder], by simp [emptyFolder],
   by simp [emptyFolder]⟩

/-- Operation `addKey` preserves the bookkeeping invariant. -/
theorem folderInv_addKey (st : FolderState) (k : String) (h : FolderInv st) :
    FolderInv (applyOp st (.addKey k)) := by
  obtain ⟨h1, h2, h3, h4⟩ := h
  by_cases hk : hasProp st k
  · simpa [applyOp, runOp, addKeyOp, hk] using FolderInv.mk h1 h2 h3 h4
  · have hka : k ∉ st.keyArray := by
      intro hmem
      exact hk (by simpa [hasProp, List.elem_iff] using (h2 k).mpr hmem)
    have hks : k ∉ st.keys := fun hmem => hka ((h1 k).mp hmem)
    have hsa : setAdd st.keys k = st.keys ++ [k] := by
      simp [setAdd, List.elem_iff, hks]
    simp only [applyOp, runOp, addKeyOp, hk, Bool.false_eq_true, if_false]
    refine ⟨?_, ?_, ?_, ?_⟩
    · intro x
      rw [hsa, sortKeys_mem]
      simp only [List.mem_append, List.mem_singleton]
      exact or_congr_left (h1 x)
    · intro x
      rw [sortKeys_mem]
      show x ∈ (st.children ++ [(k, NodeKind.pieceK)]).map Prod.fst ↔
        x ∈ st.keyArray ++ [k]
      rw [List.map_append, List.mem_append, List.mem_append]
      show x ∈ st.children.map Prod.fst ∨ x ∈ [k] ↔ x ∈ st.keyArray ∨ x ∈ [k]
      exact or_congr_left (h2 x)
    · exact sortKeys_nodup _ (nodup_append_singleton h3 hka)
    · rw [hsa]; exact nodup_append_singleton h4 hks

/-- Operation `addFolder` preserves the bookkeeping invariant. -/
theorem folderInv_addFolder (st : FolderState) (k : String) (h : FolderInv st) :
    FolderInv (applyOp st (.addFolder k)) := by
  obtain ⟨h1, h2, h3, h4⟩ := h
  by_cases hk : hasProp st k
  · simpa [applyOp, runOp, addFolderOp, hk] using FolderInv.mk h1 h2 h3 h4
  · have hka : k ∉ st.keyArray := by
      intro hmem
      exact hk (by simpa [hasProp, List.elem_iff] using (h2 k).mpr hmem)
    have hks : k ∉ st.keys := fun hmem => hka ((h1 k).mp hmem)
    have hsa : setAdd st.keys k = st.keys ++ [k] := by
      simp [setAdd, List.elem_iff, hks]
    simp only [applyOp, runOp, addFolderOp, hk, Bool.false_eq_true, if_false]
    refine ⟨?_, ?_, ?_, ?_⟩
    · intro x
      rw [hsa]
      simp only [List.mem_append, List.mem_singleton]
      exact or_congr_left (h1 x)
    · intro x
      show x ∈ (st.children ++ [(k, NodeKind.folderK)]).map Prod.fst ↔
        x ∈ st.keyArray ++ [k]
      rw [List.map_append, List.mem_append, List.mem_append]
      show x ∈ st.children.map Prod.fst ∨ x ∈ [k] ↔ x ∈ st.keyArray ∨ x ∈ [k]
      exact or_congr_left (h2 x)
    · exact nodup_append_singleton h3 hka
    · rw [hsa]; exact nodup_append_singleton h4 hks

/-- Operation `_removeKey` yields a state satisfying the bookkeeping invariant when
the key is present. -/
theorem folderInv_removeInner (st : FolderState) (k : String) (h : FolderInv st) :
    FolderInv { keys := st.keys.erase k,
                keyArray := st.keyArray.eraseIdx (st.keyArray.indexOf k),
                children := st.children.filter (fun kv => kv.1 ≠ k) } := by
  obtain ⟨h1, h2, h3, h4⟩ := h
  refine ⟨?_, ?_, ?_, ?_⟩
  · intro x
    rw [List.eraseIdx_indexOf_eq_erase]
    show x ∈ st.keys.erase k ↔ x ∈ st.keyArray.erase k
    rw [h4.mem_erase_iff, h3.mem_erase_iff]
    exact and_congr_right fun _ => h1 x
  · intro x
    rw [List.eraseIdx_indexOf_eq_erase]
    show x ∈ (st.children.filter (fun kv => kv.1 ≠ k)).map Prod.fst ↔
      x ∈ st.keyArray.erase k
    rw [h3.mem_erase_iff]
    simp only [List.mem_map, List.mem_filter, decide_eq_true_eq]
    constructor
    · rintro ⟨kv, ⟨hkv, hne⟩, rfl⟩
      exact ⟨hne, (h2 kv.1).mp (List.mem_map.mpr ⟨kv, hkv, rfl⟩)⟩
    · rintro ⟨hne, hx⟩
      obtain ⟨kv, hkv, rfl⟩ := List.mem_map.mp ((h2 x).mpr hx)
      exact ⟨kv, ⟨hkv, hne⟩, rfl⟩
  · rw [List.eraseIdx_indexOf_eq_erase]
    exact h3.erase k
  · exact h4.erase k

/-- Operation `removeKey` preserves the bookkeeping invariant. -/
theorem folderInv_removeKey (st : FolderState) (k : String) (h : FolderInv st) :
    FolderInv (applyOp st (.removeKey k)) := by
  by_cases hc : k ∈ st.keys
  · have hmem : k ∈ st.keyArray := (h.keys_keyArray k).mp hc
    have hidx : st.keyArray.indexOf k < st.keyArray.length :=
      List.indexOf_lt_length.mpr hmem
    have hrun : applyOp st (.removeKey k) =
        { keys := st.keys.erase k,
          keyArray := st.keyArray.eraseIdx (st.keyArray.indexOf k),
          children := st.children.filter (fun kv => kv.1 ≠ k) } := by
      simp [applyOp, runOp, removeKeyOp, removeKeyInner, hc, hidx]
    rw [hrun]
    exact folderInv_removeInner st k h
  · have hrun : applyOp st (.removeKey k) = st := by
      simp [applyOp, runOp, removeKeyOp, hc]
    rw [hrun]; exact h

/-- Operation `removeFolder` preserves the bookkeeping invariant. -/
theorem folderInv_removeFolder (st : FolderState) (k : String) (h : FolderInv st) :
    FolderInv (applyOp st (.removeFolder k)) := by
  by_cases hc : k ∈ st.keys
  · cases hl : (st.children.lookup k).getD .pieceK with
    | pieceK =>
        have hrun : applyOp st (.removeFolder k) = st := by
          simp [applyOp, runOp, removeFolderOp, hc, hl]
        rw [hrun]; exact h
    | folderK =>
        have hmem : k ∈ st.keyArray := (h.keys_keyArray k).mp hc
        have hidx : st.keyArray.indexOf k < st.keyArray.length :=
          List.indexOf_lt_length.mpr hmem
        have hrun : applyOp st (.removeFolder k) =
            { keys := st.keys.erase k,
              keyArray := st.keyArray.eraseIdx (st.keyArray.indexOf k),
              children := st.children.filter (fun kv => kv.1 ≠ k) } := by
          simp [applyOp, runOp, removeFolderOp, removeKeyInner, hc, hl, hidx]
        rw [hrun]
        exact folderInv_removeInner st k h
  · have hrun : applyOp st (.removeFolder k) = st := by
      simp [applyOp, runOp, removeFolderOp, hc]
    rw [hrun]; exact h

/-- Every structural mutation preserves the bookkeeping invariant. -/
theorem folderInv_applyOp (st : FolderState) (op : SOp) (h : FolderInv st) :
    FolderInv (applyOp st op) := by
  cases op with
  | addKey k => exact folderInv_addKey st k h
  | addFolder k => exact folderInv_addFolder st k h
  | removeKey k => exact folderInv_removeKey st k h
  | removeFolder k => exact folderInv_removeFolder st k h

/-- Every sequence of structural mutations preserves the bookkeeping
invariant. -/
theorem folderInv_applyOps (st : FolderState) (ops : List SOp) (h : FolderInv st) :
    FolderInv (applyOps st ops) := by
  induction ops generalizing st with
  | nil => exact h
  | cons op rest ih => exact ih (applyOp st op) (folderInv_applyOp st op h)

/-- Every structural mutation other than `addFolder` keeps `keyArray`
sorted. -/
theorem sorted_applyOp (st : FolderState) (op : SOp)
    (hs : List.Sorted (fun a b => strLe a b = true) st.keyArray)
    (hop : op.isAddFolder = false) :
    List.Sorted (fun a b => strLe a b = true) (applyOp st op).keyArray := by
  cases op with
  | addFolder k => simp [SOp.isAddFolder] at hop
  | addKey k =>
      by_cases hk : hasProp st k
      · simpa [applyOp, runOp, addKeyOp, hk] using hs
      · simp only [applyOp, runOp, addKeyOp, hk, Bool.false_eq_true, if_false]
        exact sortKeys_sorted _
  | removeKey k =>
      by_cases hc : k ∈ st.keys
      · by_cases hidx : st.keyArray.indexOf k < st.keyArray.length
        · have hrun : (applyOp st (.removeKey k)).keyArray =
              st.keyArray.eraseIdx (st.keyArray.indexOf k) := by
            simp [applyOp, runOp, removeKeyOp, removeKeyInner, hc, hidx]
          rw [hrun, List.eraseIdx_indexOf_eq_erase]
          exact hs.sublist (List.erase_sublist k st.keyArray)
        · have hrun : applyOp st (.removeKey k) = st := by
            simp [applyOp, runOp, removeKeyOp, removeKeyInner, hc, hidx]
          rw [hrun]; exact hs
      · have hrun : applyOp st (.removeKey k) = st := by
          simp [applyOp, runOp, removeKeyOp, hc]
        rw [hrun]; exact hs
  | removeFolder k =>
      by_cases hc : k ∈ st.keys
      · cases hl : (st.children.lookup k).getD .pieceK with
        | pieceK =>
            have hrun : applyOp st (.removeFolder k) = st := by
              simp [applyOp, runOp, removeFolderOp, hc, hl]
            rw [hrun]; exact hs
        | folderK =>
            by_cases hidx : st.keyArray.indexOf k < st.keyArray.length
            · have hrun : (applyOp st (.removeFolder k)).keyArray =
                  st.keyArray.eraseIdx (st.keyArray.indexOf k) := by
                simp [applyOp, runOp, removeFolderOp, removeKeyInner, hc, hl, hidx]
              rw [hrun, List.eraseIdx_indexOf_eq_erase]
              exact hs.sublist (List.erase_sublist k st.keyArray)
            · have hrun : applyOp st (.removeFolder k) = st := by
                simp [applyOp, runOp, removeFolderOp, removeKeyInner, hc, hl, hidx]
              rw [hrun]; exact hs
      · have hrun : applyOp st (.removeFolder k) = st := by
          simp [applyOp, runOp, removeFolderOp, hc]
        rw [hrun]; exact hs

/-- A sequence of structural mutations without `addFolder` keeps
`keyArray` sorted. -/
theorem sorted_applyOps (st : FolderState) (ops : List SOp)
    (hs : List.Sorted (fun a b => strLe a b = true) st.keyArray)
    (hops : ∀ op ∈ ops, op.isAddFolder = false) :
    List.Sorted (fun a b => strLe a b = true) (applyOps st ops).keyArray := by
  induction ops generalizing st with
  | nil => exact hs
  | cons op rest ih =>
      exact ih (applyOp st op)
        (sorted_applyOp st op hs (hops op (by simp)))
        (fun o ho => hops o (by simp [ho]))

/-- C4 (amended): starting from a fresh Folder, after **any** sequence of
structural mutations the `keys` Set and the ordered `keyArray` agree
exactly in membership; the sequence is moreover alphabetically sorted
provided no `addFolder` occurred — `addFolder` appends the new folder
name at the end of `keyArray` without re-sorting (unlike `_addKey`), so
sortedness can be violated after it (see the counterexample). -/
theorem c4_membership_and_sorting (ops : List SOp) :
    (∀ k, k ∈ (applyOps emptyFolder ops).keys ↔
      k ∈ (applyOps emptyFolder ops).keyArray) ∧
    ((∀ op ∈ ops, op.isAddFolder = false) →
      List.Sorted (fun a b => strLe a b = true) (applyOps emptyFolder ops).keyArray) :=
  ⟨(folderInv_applyOps emptyFolder ops folderInv_empty).keys_keyArray,
   fun hops => sorted_applyOps emptyFolder ops (by simp [emptyFolder]) hops⟩

/-- C4 witness: the amended claim applied to the concrete mutation
sequence `addKey "b"; addKey "a"; removeKey "b"`, discharging the
no-`addFolder` hypothesis by computation. -/
theorem c4_membership_and_sorting_witness :
    ("a" ∈ (applyOps emptyFolder [SOp.addKey "b", SOp.addKey "a", SOp.removeKey "b"]).keys ↔
      "a" ∈ (applyOps emptyFolder [SOp.addKey "b", SOp.addKey "a", SOp.removeKey "b"]).keyArray) ∧
    List.Sorted (fun a b => strLe a b = true)
      (applyOps emptyFolder [SOp.addKey "b", SOp.addKey "a", SOp.removeKey "b"]).keyArray :=
  ⟨(c4_membership_and_sorting [SOp.addKey "b", SOp.addKey "a", SOp.removeKey "b"]).1 "a",
   (c4_membership_and_sorting [SOp.addKey "b", SOp.addKey "a", SOp.removeKey "b"]).2
     (by decide)⟩

/-! ### Helper lemmas for the path-resolution equivalence -/

/-- The `keys` Set membership test agrees with child lookup success. -/
theorem keysHas_eq_isSome (cs : List (String × SchemaNode)) (k : String) :
    keysHas cs k = (childFind cs k).isSome := by
  induction cs with
  | nil => rfl
  | cons hd tl ih =>
      obtain ⟨k1, c1⟩ := hd
      by_cases h : k1 = k
      · subst h; simp [keysHas, childFind]
      · have hbeq : (k == k1) = false := beq_eq_false_iff_ne.mpr (Ne.symm h)
        have hbeq2 : (k1 == k) = false := beq_eq_false_iff_ne.mpr h
        simp only [keysHas, List.map_cons, List.contains_cons, hbeq,
          Bool.false_or, childFind, hbeq2, Bool.false_eq_true, if_false]
        exact ih

/-- The index-carrying walk of `getPath` computes the same result as the
specification-side resolver carrying the consumed-segment list. -/
theorem getPathWalk_eq_specResolve (rest : List String) :
    ∀ (node : SchemaNode) (full : List String) (i : Nat),
      full.drop i = rest →
      getPathWalk node full i rest = specResolve node (full.take i) rest := by
  induction rest with
  | nil => intro node full i _; cases node <;> rfl
  | cons k rest ih =>
      intro node full i hdrop
      have hget : full[i]? = some k := by
        rw [← List.head?_drop, hdrop]; rfl
      have hdrop1 : full.drop (i + 1) = rest := by
        have h1 : (full.drop i).drop 1 = full.drop (i + 1) := by
          rw [List.drop_drop]
        rw [← h1, hdrop]; rfl
      have htake : full.take (i + 1) = full.take i ++ [k] := by
        rw [List.take_succ, hget]; rfl
      cases node with
      | piece p => rfl
      | folder cs =>
          simp only [getPathWalk, specResolve, keysHas_eq_isSome]
          cases hcf : childFind cs k with
          | none => simp
          | some c =>
              simp only [Option.isSome_some, if_true, Option.getD_some]
              rw [ih c full (i + 1) hdrop1, htake]

/-- C7 (amended): for every schema, dotted key and configurability flag,
`getPath` behaves as the amended specification `specGetPath` prescribes:
it fails with a key-does-not-exist error naming the dotted join of the
segments **strictly before** the first missing one (the empty string when
the first segment is missing) rather than the missing segment itself;
walking through a Field before the final segment raises a `TypeError`;
a Folder result fails with the choose-one-of error listing the keys of
the Folder; a non-configurable Field fails with the not-configurable error when
`avoidUnconfigurable` is set; and otherwise the resolved Field and the
ordered segment list are returned. -/
theorem c7_getpath_resolution_amended (sch : SchemaNode) (key : String)
    (avoid : Bool) :
    gwGetPath sch (some key) avoid = specGetPath sch key avoid := by
  simp only [gwGetPath, specGetPath]
  rw [getPathWalk_eq_specResolve (splitDot key) sch (splitDot key) 0 (by simp),
    List.take_zero]

/-- C9: for every schema, parser, validate function, gateway state,
target resolvable, raw value, guild resolvable (absorbed into `parse`)
and configurability flag, when the dotted key resolves to an array-typed
Field, `updateOne` is observably equivalent to `updateArray` with action
`add`: the same returned value and Field, the same final cache and
provider state and the same failure outcomes, because `_updateOne`
delegates to `_updateArray target "add" ...` and the public wrappers
share the provider-write/return tail. -/
theorem c9_updateone_delegates_to_updatearray_add (sch : SchemaNode)
    (parse : SPiece → Value → Value) (validate : Value → Value) (gw : GW)
    (input : Value) (key : String) (value : Value) (avoid : Bool)
    (fld : SPiece) (route : List String)
    (hpath : gwGetPath sch (some key) avoid = .ok (fld, route))
    (harr : fld.array = true) :
    gwUpdateOne sch parse validate gw input key value avoid =
      gwUpdateArray sch parse validate gw input "add" key value avoid := by
  simp only [gwUpdateOne, gwUpdateArray, gwUpdateOneInner, hpath, bind,
    Except.bind, harr]
  simp

/-- C9 witness: the equivalence applied at the concrete array field
`users` and gateway `usersGw`, discharging the path-resolution and
array-typedness hypotheses by computation. -/
theorem c9_updateone_delegates_witness :
    gwUpdateOne usersSchema dataParse idValidate usersGw (.vStr "g1") "users"
        (.vStr "146048938242211840") false =
      gwUpdateArray usersSchema dataParse idValidate usersGw (.vStr "g1") "add"
        "users" (.vStr "146048938242211840") false :=
  c9_updateone_delegates_to_updatearray_add usersSchema dataParse idValidate
    usersGw (.vStr "g1") "users" (.vStr "146048938242211840") false usersPiece
    ["users"] rfl rfl

end Klasa
